import Mathlib

/-!
Verification of the order/customer management layer of the print-shop
dashboard: the client-side batch grouping view (`groupedOrders` in
`src/App.tsx`) and the JSON API handlers (customers, orders with batch
creation / cascade semantics, stats, billing) defined at the bottom of
`src/App.tsx`.

Modelling conventions:
* TypeScript numbers are modelled as `ℚ` for money/quantities and `Nat`
  for row ids; strings as `String`.
* Optional columns are `Option _`.  JavaScript truthiness on an optional
  string column (`if (order.batch_id)`) treats both `null` and the empty
  string as false; `truthy` embeds that check.
* Row-level security (RLS) of the external database restricts every query
  to the authenticated user's rows, so a `DB` value models the slice of
  the database visible to (owned by) the authenticated user.
* The database serial id counters are modelled by `nextOrderId` /
  `nextCustomerId`; the wall clock (`Date.now()`, the server's calendar
  date, `now()` defaults) and `Math.random()` suffixes enter through the
  request environment `Env`.  The deployment target runs with a UTC local
  clock, so the server's local calendar date and the UTC date produced by
  `toISOString()` coincide and are modelled by the single `Env.today`.
* External database failures are modelled where a claim depends on them:
  the per-iteration failure oracle `Env.failAt` for the order insert loop.
  Date columns are compared as ISO `YYYY-MM-DD` strings (`strLe`), which
  agrees with the database's date comparison on valid ISO dates.
-/

namespace CRM

/-- Lexicographic comparison of character lists by code point. -/
def strLtChars : List Char → List Char → Bool
  | [], [] => false
  | [], _ :: _ => true
  | _ :: _, [] => false
  | a :: as, b :: bs =>
    if a.toNat < b.toNat then true
    else if b.toNat < a.toNat then false
    else strLtChars as bs

/-- String `≤`, used to embed the database's `gte`/`lte` comparisons on ISO
date strings. -/
def strLe (a b : String) : Bool := strLtChars a.data b.data || decide (a = b)

/-- Does `pat` occur at the head of the list? -/
def startsWithChars : List Char → List Char → Bool
  | [], _ => true
  | _ :: _, [] => false
  | p :: ps, c :: cs => p == c && startsWithChars ps cs

/-- Remove the first occurrence of `pat` from a character list (JavaScript
`String.replace` with a string pattern replaces only the first occurrence). -/
def replFirstOcc (pat : List Char) : List Char → List Char
  | [] => []
  | c :: cs =>
    if startsWithChars pat (c :: cs) then List.drop pat.length (c :: cs)
    else c :: replFirstOcc pat cs

/-- Embeds `h.replace('Bearer ', '')` of the source: drop the first occurrence of
the pattern. -/
def replaceFirstStr (s pat : String) : String :=
  String.mk (replFirstOcc pat.data s.data)

/-- The authenticated user as returned by the identity provider. -/
structure User where
  id : String
deriving DecidableEq

/-- Embeds `getAuthClient` from `src/App.tsx`: take the Authorization header, strip
the first `"Bearer "` occurrence, reject an absent or empty token, and ask
the identity provider (`getUser`) to validate it. -/
def getAuthClient (getUser : String → Option User) (header : Option String) :
    Option User :=
  match header with
  | none => none
  | some h =>
    let token := replaceFirstStr h "Bearer "
    if token = "" then none else getUser token

/-- An HTTP error reply: status code plus the JSON body's `error` field. -/
structure ErrResp where
  status : Nat
  error : String
deriving DecidableEq

/-- The `401 {error: 'Não autorizado'}` reply every handler returns when
`getAuthClient` yields no user. -/
def err401 : ErrResp := ⟨401, "Não autorizado"⟩

/-! ### Client-side data model (`src/types.ts`) and the grouped view -/

/-- The client-side `Order` interface. -/
structure Order where
  id : Nat
  customer_id : Nat
  customer_name : String
  customer_phone : String
  service_type : String
  description : String
  quantity : ℚ
  unit_price : ℚ
  total_price : ℚ
  order_date : String
  delivery_date : String
  status : String
  notes : Option String
  batch_id : Option String
  images : Option (List String)
  created_at : String
deriving DecidableEq, Inhabited

/-- JavaScript truthiness of an optional string: `null`/`undefined` and the
empty string are falsy.  Returns the string when truthy. -/
def truthy : Option String → Option String
  | none => none
  | some s => if s = "" then none else some s

/-- One element of the grouped view: either a plain order (`is_group` false,
as the absent `is_group` field is falsy in JavaScript) or a synthetic group
row carrying the member list. -/
structure Row where
  order : Order
  is_group : Bool
  batch_items : List Order
deriving DecidableEq, Inhabited

/-- Record a key in first-occurrence order, as inserting into a JavaScript
object (`if (!groups[batch_id]) groups[batch_id] = []`) does. -/
def insertKey (ks : List String) (k : String) : List String :=
  if k ∈ ks then ks else ks ++ [k]

/-- The keys of the `groups` object built by `groupedOrders`: the distinct
truthy `batch_id` values in first-occurrence order. -/
def batchKeys (orders : List Order) : List String :=
  orders.foldl
    (fun ks o =>
      match truthy o.batch_id with
      | some b => insertKey ks b
      | none => ks)
    []

/-- The member list collected under key `b`: the orders pushed into
`groups[b]`, i.e. those whose truthy `batch_id` equals `b`. -/
def membersOf (orders : List Order) (b : String) : List Order :=
  orders.filter (fun o => decide (truthy o.batch_id = some b))

/-- Embeds `items.reduce((sum, item) => sum + item.total_price, 0)`. -/
def sumPrices (items : List Order) : ℚ :=
  items.foldl (fun s o => s + o.total_price) 0

/-- The synthetic group row: the first member's fields with `service_type`
replaced by the sentinel and `total_price` by the member sum. -/
def groupRow (items : List Order) : Row :=
  { order := { items.headI with
                 service_type := "DIVERSOS"
                 total_price := sumPrices items }
    is_group := true
    batch_items := items }

/-- The sort comparator `(a, b) => dateB.getTime() - dateA.getTime()`:
descending in the numeric timestamp of `order_date`.  `key` stands for the
opaque `new Date(s).getTime()` conversion. -/
def rowRel (key : String → Int) (a b : Row) : Prop :=
  key b.order.order_date ≤ key a.order.order_date

instance (key : String → Int) : DecidableRel (rowRel key) :=
  fun a b => Int.decLe (key b.order.order_date) (key a.order.order_date)

/-- Embeds `groupedOrders` from `src/App.tsx`: partition the orders into singles
(falsy `batch_id`) and groups keyed by truthy `batch_id`, collapse each
group into a synthetic row, and stably sort everything by `order_date`
descending. -/
def groupedOrders (key : String → Int) (orders : List Order) : List Row :=
  let singles : List Row :=
    (orders.filter (fun o => decide (truthy o.batch_id = none))).map
      (fun o => { order := o, is_group := false, batch_items := [] })
  let processedGroups : List Row :=
    (batchKeys orders).map (fun b => groupRow (membersOf orders b))
  List.insertionSort (rowRel key) (singles ++ processedGroups)

/-! ### Server-side data model -/

/-- A row of the `customers` table, restricted to the authenticated user's
slice (the `user_id` column is constant on the slice and omitted). -/
structure Customer where
  id : Nat
  name : String
  phone : String
  email : Option String
  company : Option String
  created_at : String
deriving DecidableEq, Inhabited

/-- A row of the `orders` table (the authenticated user's slice). -/
structure DbOrder where
  id : Nat
  customer_id : Nat
  service_type : String
  description : String
  quantity : ℚ
  unit_price : ℚ
  total_price : ℚ
  order_date : String
  delivery_date : String
  status : String
  notes : Option String
  batch_id : Option String
deriving DecidableEq, Inhabited

/-- The database slice visible to the authenticated user: `customers`,
`orders`, `order_images` rows `(order_id, image_data)`, plus the serial id
counters of the two tables. -/
structure DB where
  customers : List Customer
  orders : List DbOrder
  images : List (Nat × String)
  nextOrderId : Nat
  nextCustomerId : Nat
deriving DecidableEq, Inhabited

/-- One order payload of a `POST /api/orders` request body. -/
structure Payload where
  customer_id : Nat
  service_type : String
  description : String
  quantity : ℚ
  unit_price : ℚ
  total_price : ℚ
  order_date : String
  delivery_date : String
  status : String
  notes : Option String
  images : List String
deriving DecidableEq, Inhabited

/-- The body of `POST /api/customers`. -/
structure CustPayload where
  name : String
  phone : String
  email : Option String
  company : Option String
deriving DecidableEq

/-- The body of `POST /api/orders`: a single object or an array
(`Array.isArray(req.body) ? req.body : [req.body]`). -/
inductive ReqBody where
  | single (p : Payload)
  | array (ps : List Payload)
deriving DecidableEq

/-- The normalised payload list the handler iterates over. -/
def ReqBody.toList : ReqBody → List Payload
  | .single p => [p]
  | .array ps => ps

/-- The generated batch id:
`` `batch_${Date.now()}_${Math.random().toString(36).substr(2, 9)}` ``. -/
def genBatchId (nowMs : Nat) (suffix : String) : String :=
  "batch_" ++ toString nowMs ++ "_" ++ suffix

/-- The `orders` row inserted for one payload. -/
def mkRow (oid : Nat) (batch : Option String) (p : Payload) : DbOrder :=
  { id := oid
    customer_id := p.customer_id
    service_type := p.service_type
    description := p.description
    quantity := p.quantity
    unit_price := p.unit_price
    total_price := p.total_price
    order_date := p.order_date
    delivery_date := p.delivery_date
    status := p.status
    notes := p.notes
    batch_id := batch }

/-- One successful iteration of the `POST /api/orders` loop: insert the
order row under the next serial id, then (when the payload carries images)
insert the image rows, whose own result the source never checks. -/
def stepState (st : DB) (batch : Option String) (p : Payload) : DB :=
  let oid := st.nextOrderId
  let st1 : DB :=
    { st with orders := st.orders ++ [mkRow oid batch p]
              nextOrderId := oid + 1 }
  if p.images.length > 0 then
    { st1 with images := st1.images ++ p.images.map (fun im => (oid, im)) }
  else st1

/-- The non-transactional insert loop of `POST /api/orders`.  `failAt i`
says whether the external database rejects the `i`-th order insert; a
failure throws out of the loop, is caught, and becomes a generic 500 reply,
leaving previously inserted rows in place. -/
def insertLoop (failAt : Nat → Bool) (batch : Option String) :
    Nat → List Nat → DB → List Payload → DB × Except ErrResp (List Nat)
  | _, acc, st, [] => (st, .ok acc)
  | i, acc, st, p :: rest =>
    if failAt i then (st, .error ⟨500, "Erro ao salvar pedidos."⟩)
    else insertLoop failAt batch (i + 1) (acc ++ [st.nextOrderId]) (stepState st batch p) rest

/-- Handler body of `POST /api/orders` after authentication: normalise the body, generate a
batch id only when more than one payload was submitted, and run the insert
loop. -/
def postOrdersCore (db : DB) (body : ReqBody) (nowMs : Nat) (suffix : String)
    (failAt : Nat → Bool) : DB × Except ErrResp (List Nat) :=
  let ps := body.toList
  let batch : Option String :=
    if ps.length > 1 then some (genBatchId nowMs suffix) else none
  insertLoop failAt batch 0 [] db ps

/-- Embeds `.select().eq('id', id).single()`: the row, provided exactly one row
matches; any other outcome is an error, whose swallowed `data` is `null`. -/
def lookupSingleOrder (orders : List DbOrder) (id : Nat) : Option DbOrder :=
  match orders.filter (fun o => decide (o.id = id)) with
  | [o] => some o
  | _ => none

/-- Handler body of `PATCH /api/orders/:id/status` after authentication: look the order up;
on a truthy `batch_id` update every row with that `batch_id`, otherwise
update by `id`; reply `{success: true}` unconditionally. -/
def patchStatusCore (db : DB) (id : Nat) (s : String) :
    DB × Except ErrResp Bool :=
  match (lookupSingleOrder db.orders id).bind (fun o => truthy o.batch_id) with
  | some b =>
    let upd := db.orders.map
      (fun x => if x.batch_id = some b then { x with status := s } else x)
    ({ db with orders := upd }, .ok true)
  | none =>
    let upd := db.orders.map
      (fun x => if x.id = id then { x with status := s } else x)
    ({ db with orders := upd }, .ok true)

/-- Handler body of `DELETE /api/orders/:id` after authentication: same lookup; on a truthy
`batch_id` delete every row with that `batch_id`, otherwise delete by `id`;
reply `{success: true}` unconditionally. -/
def deleteOrderCore (db : DB) (id : Nat) : DB × Except ErrResp Bool :=
  match (lookupSingleOrder db.orders id).bind (fun o => truthy o.batch_id) with
  | some b =>
    ({ db with orders := db.orders.filter (fun x => !decide (x.batch_id = some b)) },
     .ok true)
  | none =>
    ({ db with orders := db.orders.filter (fun x => !decide (x.id = id)) },
     .ok true)

/-- The reply of `GET /api/orders/:id`: the row, the joined customer name
and phone, the image payloads, and the batch members when `batch_id` is
truthy. -/
structure OrderDetail where
  order : DbOrder
  customer_name : Option String
  customer_phone : Option String
  images : List String
  batch_items : Option (List DbOrder)
deriving DecidableEq

/-- Handler body of `GET /api/orders/:id` after authentication: a failed single-row lookup
becomes `404 {error: 'Pedido não encontrado'}`. -/
def getOrderByIdCore (db : DB) (id : Nat) : DB × Except ErrResp OrderDetail :=
  match lookupSingleOrder db.orders id with
  | none => (db, .error ⟨404, "Pedido não encontrado"⟩)
  | some o =>
    let c := db.customers.find? (fun c => decide (c.id = o.customer_id))
    let imgs := (db.images.filter (fun r => decide (r.1 = o.id))).map (fun r => r.2)
    let batch : Option (List DbOrder) :=
      match truthy o.batch_id with
      | some b => some (db.orders.filter (fun x => decide (x.batch_id = some b)))
      | none => none
    (db, .ok { order := o
               customer_name := c.map Customer.name
               customer_phone := c.map Customer.phone
               images := imgs
               batch_items := batch })

/-- Handler body of `POST /api/customers` after authentication: `maybeSingle` on the
`(name, phone)` pre-insert check yields a row only when exactly one row
matches (zero rows give `null`, several rows give a swallowed error with
`null` data); a found row short-circuits into `400`, otherwise the customer
is inserted. -/
def postCustomerCore (db : DB) (nowIso : String) (p : CustPayload) :
    DB × Except ErrResp Nat :=
  let dupRows :=
    db.customers.filter (fun c => decide (c.name = p.name) && decide (c.phone = p.phone))
  if dupRows.length = 1 then
    (db, .error ⟨400, "Cliente já cadastrado com este nome e telefone."⟩)
  else
    let cid := db.nextCustomerId
    let row : Customer :=
      { id := cid, name := p.name, phone := p.phone, email := p.email,
        company := p.company, created_at := nowIso }
    ({ db with customers := db.customers ++ [row], nextCustomerId := cid + 1 },
     .ok cid)

/-- Handler body of `DELETE /api/customers/:id` after authentication. -/
def deleteCustomerCore (db : DB) (id : Nat) : DB × Except ErrResp Bool :=
  ({ db with customers := db.customers.filter (fun c => !decide (c.id = id)) },
   .ok true)

/-- Ascending customer-name order of `GET /api/customers`. -/
def custNameRel (a b : Customer) : Prop := strLe a.name b.name = true

instance : DecidableRel custNameRel := fun a b => Bool.decEq (strLe a.name b.name) true

/-- Handler body of `GET /api/customers` after authentication. -/
def getCustomersCore (db : DB) : List Customer :=
  List.insertionSort custNameRel db.customers

/-- One element of the `GET /api/orders` reply: the row with the joined
customer name and phone spread in. -/
structure OrderOut where
  order : DbOrder
  customer_name : Option String
  customer_phone : Option String
deriving DecidableEq

/-- Descending `order_date` order of `GET /api/orders`. -/
def orderDateRelDesc (a b : DbOrder) : Prop := strLe b.order_date a.order_date = true

instance : DecidableRel orderDateRelDesc := fun a b => Bool.decEq (strLe b.order_date a.order_date) true

/-- Handler body of `GET /api/orders` after authentication. -/
def getOrdersCore (db : DB) : List OrderOut :=
  (List.insertionSort orderDateRelDesc db.orders).map
    (fun o =>
      let c := db.customers.find? (fun c => decide (c.id = o.customer_id))
      { order := o
        customer_name := c.map Customer.name
        customer_phone := c.map Customer.phone })

/-! ### Stats and billing -/

/-- The server's calendar date (UTC, which is also the local clock of the
deployment target). -/
structure Today where
  year : Nat
  month : Nat
  day : Nat
deriving DecidableEq, Inhabited

def isLeap (y : Nat) : Bool :=
  (y % 4 = 0 && y % 100 ≠ 0) || y % 400 = 0

/-- Length of month `m` (1-12) of year `y`, as `new Date(y, m, 0).getDate()`
computes it. -/
def daysInMonth (y m : Nat) : Nat :=
  if m = 2 then (if isLeap y then 29 else 28)
  else if m = 4 ∨ m = 6 ∨ m = 9 ∨ m = 11 then 30
  else 31

/-- Two-digit zero padding of `toISOString` date components. -/
def pad2 (n : Nat) : String :=
  if n < 10 then "0" ++ toString n else toString n

/-- The `YYYY-MM-DD` slice of `toISOString`. -/
def isoDate (y m d : Nat) : String :=
  toString y ++ "-" ++ pad2 m ++ "-" ++ pad2 d

/-- The `YYYY-MM` slice of `toISOString`. -/
def monthStr (t : Today) : String := toString t.year ++ "-" ++ pad2 t.month

/-- Embeds the string `` `${currentMonth}-01` `` of the stats handler. -/
def startOfMonthStr (t : Today) : String := monthStr t ++ "-01"

/-- Embeds `new Date(y, m + 1, 0).toISOString().slice(0, 10)`: the last day of the
current month. -/
def endOfMonthStr (t : Today) : String :=
  isoDate t.year t.month (daysInMonth t.year t.month)

/-- Sum of `total_price` over rows with `lo ≤ order_date ≤ hi` (the
`gte`/`lte` range query followed by the `reduce`). -/
def revenueInRange (orders : List DbOrder) (lo hi : String) : ℚ :=
  (orders.filter (fun o => strLe lo o.order_date && strLe o.order_date hi)).foldl
    (fun s o => s + o.total_price) 0

/-- The `GET /api/stats` reply body. -/
structure Stats where
  totalOrders : Nat
  ongoingOrders : Nat
  monthlyRevenue : ℚ
  totalCustomers : Nat
  pendingOrders : Nat
deriving DecidableEq

/-- Handler body of `GET /api/stats` after authentication. -/
def getStatsCore (db : DB) (t : Today) : Stats :=
  { totalOrders := db.orders.length
    ongoingOrders :=
      (db.orders.filter
        (fun o => decide (o.status = "Orçamento") || decide (o.status = "Em Produção"))).length
    monthlyRevenue := revenueInRange db.orders (startOfMonthStr t) (endOfMonthStr t)
    totalCustomers := db.customers.length
    pendingOrders := (db.orders.filter (fun o => decide (o.status = "Orçamento"))).length }

/-- Embeds `toLocaleString('pt-BR', {month: 'short'})`. -/
def monthShortPt : Nat → String
  | 1 => "jan."
  | 2 => "fev."
  | 3 => "mar."
  | 4 => "abr."
  | 5 => "mai."
  | 6 => "jun."
  | 7 => "jul."
  | 8 => "ago."
  | 9 => "set."
  | 10 => "out."
  | 11 => "nov."
  | _ => "dez."

/-- Embeds `d.setMonth(d.getMonth() - back)` on the current date: move back whole
months keeping the day of month; a day beyond the target month's length
rolls over into the following month, as JavaScript date normalisation
does. -/
def shiftMonth (t : Today) (back : Nat) : Today :=
  let idx := t.year * 12 + (t.month - 1) - back
  let ty := idx / 12
  let tm := idx % 12 + 1
  if t.day > daysInMonth ty tm then
    if tm = 12 then ⟨ty + 1, 1, t.day - daysInMonth ty tm⟩
    else ⟨ty, tm + 1, t.day - daysInMonth ty tm⟩
  else ⟨ty, tm, t.day⟩

/-- Handler body of `GET /api/billing/trends` after authentication: the six trailing
calendar months, oldest first. -/
def getTrendsCore (db : DB) (t : Today) : List (String × ℚ) :=
  (List.range 6).map
    (fun j =>
      let d := shiftMonth t (5 - j)
      let lo := isoDate d.year d.month 1
      let hi := isoDate d.year d.month (daysInMonth d.year d.month)
      (monthShortPt d.month, revenueInRange db.orders lo hi))

/-- Handler body of `GET /api/billing/distribution` after authentication: two labelled
status buckets with fixed colors. -/
def getDistributionCore (db : DB) : List (String × Nat × String) :=
  [("Finalizados",
    ((db.orders.filter (fun o => decide (o.status = "Entregue"))).length,
     "#3b82f6")),
   ("Em Aberto",
    ((db.orders.filter
        (fun o =>
          decide (o.status = "Orçamento") || decide (o.status = "Em Produção") ||
            decide (o.status = "Finalizado"))).length,
     "#10b981"))]

/-! ### The request environment and the eleven handlers -/

/-- Per-request ambient inputs: the identity provider, the Authorization
header, the clocks, the random batch-id suffix, and the insert-failure
oracle for the order loop. -/
structure Env where
  getUser : String → Option User
  header : Option String
  nowMs : Nat
  suffix : String
  today : Today
  nowIso : String
  failAt : Nat → Bool

/-- Endpoint `GET /api/customers`. -/
def getCustomersH (env : Env) (db : DB) : DB × Except ErrResp (List Customer) :=
  match getAuthClient env.getUser env.header with
  | none => (db, .error err401)
  | some _ => (db, .ok (getCustomersCore db))

/-- Endpoint `POST /api/customers`. -/
def postCustomersH (env : Env) (db : DB) (p : CustPayload) :
    DB × Except ErrResp Nat :=
  match getAuthClient env.getUser env.header with
  | none => (db, .error err401)
  | some _ => postCustomerCore db env.nowIso p

/-- Endpoint `DELETE /api/customers/:id`. -/
def deleteCustomerH (env : Env) (db : DB) (id : Nat) : DB × Except ErrResp Bool :=
  match getAuthClient env.getUser env.header with
  | none => (db, .error err401)
  | some _ => deleteCustomerCore db id

/-- Endpoint `GET /api/orders`. -/
def getOrdersH (env : Env) (db : DB) : DB × Except ErrResp (List OrderOut) :=
  match getAuthClient env.getUser env.header with
  | none => (db, .error err401)
  | some _ => (db, .ok (getOrdersCore db))

/-- Endpoint `GET /api/orders/:id`. -/
def getOrderH (env : Env) (db : DB) (id : Nat) : DB × Except ErrResp OrderDetail :=
  match getAuthClient env.getUser env.header with
  | none => (db, .error err401)
  | some _ => getOrderByIdCore db id

/-- Endpoint `POST /api/orders`. -/
def postOrdersH (env : Env) (db : DB) (body : ReqBody) :
    DB × Except ErrResp (List Nat) :=
  match getAuthClient env.getUser env.header with
  | none => (db, .error err401)
  | some _ => postOrdersCore db body env.nowMs env.suffix env.failAt

/-- Endpoint `PATCH /api/orders/:id/status`. -/
def patchStatusH (env : Env) (db : DB) (id : Nat) (s : String) :
    DB × Except ErrResp Bool :=
  match getAuthClient env.getUser env.header with
  | none => (db, .error err401)
  | some _ => patchStatusCore db id s

/-- Endpoint `DELETE /api/orders/:id`. -/
def deleteOrderH (env : Env) (db : DB) (id : Nat) : DB × Except ErrResp Bool :=
  match getAuthClient env.getUser env.header with
  | none => (db, .error err401)
  | some _ => deleteOrderCore db id

/-- Endpoint `GET /api/stats`. -/
def getStatsH (env : Env) (db : DB) : DB × Except ErrResp Stats :=
  match getAuthClient env.getUser env.header with
  | none => (db, .error err401)
  | some _ => (db, .ok (getStatsCore db env.today))

/-- Endpoint `GET /api/billing/trends`. -/
def getTrendsH (env : Env) (db : DB) : DB × Except ErrResp (List (String × ℚ)) :=
  match getAuthClient env.getUser env.header with
  | none => (db, .error err401)
  | some _ => (db, .ok (getTrendsCore db env.today))

/-- Endpoint `GET /api/billing/distribution`. -/
def getDistributionH (env : Env) (db : DB) :
    DB × Except ErrResp (List (String × Nat × String)) :=
  match getAuthClient env.getUser env.header with
  | none => (db, .error err401)
  | some _ => (db, .ok (getDistributionCore db))

/-! ### Specification helpers and concrete sample data -/

/-- Specification of the rows the insert loop persists for a payload list:
consecutive serial ids starting at `startId`, all stamped with `batch`. -/
def buildRows (startId : Nat) (batch : Option String) : List Payload → List DbOrder
  | [] => []
  | p :: rest => mkRow startId batch p :: buildRows (startId + 1) batch rest

def user0 : User := ⟨"user-1"⟩

def gu0 : String → Option User := fun t => if t = "tok" then some user0 else none

/-- An environment whose request authenticates as `user0`. -/
def envOk : Env :=
  { getUser := gu0
    header := some "Bearer tok"
    nowMs := 1700000000000
    suffix := "abc123xyz"
    today := ⟨2024, 3, 15⟩
    nowIso := "2024-03-15"
    failAt := fun _ => false }

/-- The same environment without an Authorization header. -/
def env401 : Env := { envOk with header := none }

/-- The same environment whose second order insert (index 1) fails. -/
def envFail1 : Env := { envOk with failAt := fun i => decide (i = 1) }

def baseOrder : Order :=
  { id := 1, customer_id := 1, customer_name := "Ana",
    customer_phone := "11999990000", service_type := "Banner",
    description := "", quantity := 1, unit_price := 10, total_price := 10,
    order_date := "2024-03-01", delivery_date := "2024-03-05",
    status := "Orçamento", notes := none, batch_id := none, images := none,
    created_at := "2024-03-01" }

/-- Two client orders sharing the empty-string `batch_id`. -/
def emptyBatchO1 : Order := { baseOrder with id := 1, batch_id := some "" }

def emptyBatchO2 : Order :=
  { baseOrder with id := 2, batch_id := some "", order_date := "2024-03-02" }

def baseRow : DbOrder :=
  { id := 1, customer_id := 1, service_type := "Banner", description := "",
    quantity := 1, unit_price := 10, total_price := 10,
    order_date := "2024-03-01", delivery_date := "2024-03-05",
    status := "Orçamento", notes := none, batch_id := none }

/-- Two stored orders sharing the empty-string `batch_id`. -/
def rowEB1 : DbOrder := { baseRow with id := 1, batch_id := some "" }

def rowEB2 : DbOrder := { baseRow with id := 2, batch_id := some "" }

def dbEB : DB :=
  { customers := [], orders := [rowEB1, rowEB2], images := [],
    nextOrderId := 3, nextCustomerId := 1 }

def dbEmpty : DB :=
  { customers := [], orders := [], images := [], nextOrderId := 1,
    nextCustomerId := 1 }

/-- Two stored orders sharing batch `b1` plus an unbatched one. -/
def rowB1 : DbOrder := { baseRow with id := 1, batch_id := some "b1" }

def rowB2 : DbOrder := { baseRow with id := 2, batch_id := some "b1" }

def rowSolo : DbOrder := { baseRow with id := 3 }

def dbBatch : DB :=
  { customers := [], orders := [rowB1, rowB2, rowSolo], images := [],
    nextOrderId := 4, nextCustomerId := 1 }

def pay1 : Payload :=
  { customer_id := 1, service_type := "Banner", description := "",
    quantity := 2, unit_price := 10, total_price := 20,
    order_date := "2024-03-01", delivery_date := "2024-03-05",
    status := "Orçamento", notes := none, images := [] }

def pay2 : Payload := { pay1 with quantity := 1, unit_price := 5, total_price := 5 }

def pay3 : Payload := { pay1 with quantity := 3, unit_price := 1, total_price := 3 }

/-- March orders for the monthly-revenue example: both boundary days. -/
def sampleMar1 : DbOrder :=
  { baseRow with id := 1, order_date := "2024-03-01", total_price := 100 }

def sampleMar31 : DbOrder :=
  { baseRow with id := 2, order_date := "2024-03-31", total_price := 50 }

def sampleFeb28 : DbOrder :=
  { baseRow with id := 3, order_date := "2024-02-28", total_price := 999 }

def dbStats : DB :=
  { customers := [], orders := [sampleMar1, sampleMar31, sampleFeb28],
    images := [], nextOrderId := 4, nextCustomerId := 1 }

/-- The duplicate-customer example payload. -/
def custAna : CustPayload :=
  { name := "Ana", phone := "11999990000", email := none, company := none }

/-- A client order list with one single order and one two-member batch. -/
def ordersC1w : List Order :=
  [baseOrder,
   { baseOrder with id := 2, batch_id := some "b1", total_price := 20 },
   { baseOrder with id := 3, batch_id := some "b1", total_price := 5 }]

/-! ### General lemmas -/

theorem foldl_add_map {α : Type} (f : α → ℚ) :
    ∀ (l : List α) (init : ℚ),
      l.foldl (fun s o => s + f o) init = init + (l.map f).sum := by
  intro l
  induction l with
  | nil => intro init; simp
  | cons a l ih =>
    intro init
    simp only [List.foldl_cons, List.map_cons, List.sum_cons, ih]
    ring

theorem truthy_eq_some {ob : Option String} {b : String} (h : truthy ob = some b) :
    ob = some b ∧ b ≠ "" := by
  cases ob with
  | none => simp [truthy] at h
  | some s =>
    by_cases hs : s = "" <;> simp [truthy, hs] at h
    subst h
    exact ⟨rfl, hs⟩

theorem truthy_decide_eq {b : String} (hb : b ≠ "") (ob : Option String) :
    decide (truthy ob = some b) = decide (ob = some b) := by
  apply decide_eq_decide.mpr
  cases ob with
  | none => simp [truthy]
  | some s =>
    by_cases hs : s = ""
    · subst hs
      constructor
      · intro h
        simp [truthy] at h
      · intro h
        exact absurd (Option.some.inj h).symm hb
    · simp [truthy, hs]

theorem foldl_insertKey_spec :
    ∀ (l ks : List String), ks.Nodup →
      (l.foldl insertKey ks).Nodup
        ∧ ∀ x, x ∈ l.foldl insertKey ks ↔ x ∈ ks ∨ x ∈ l := by
  intro l
  induction l with
  | nil =>
    intro ks h
    refine ⟨h, fun x => ?_⟩
    simp
  | cons a l ih =>
    intro ks h
    by_cases ha : a ∈ ks
    · have hk : insertKey ks a = ks := by simp [insertKey, ha]
      have := ih ks h
      refine ⟨by simpa [hk] using this.1, fun x => ?_⟩
      rw [List.foldl_cons, hk, this.2 x]
      constructor
      · rintro (hx | hx)
        · exact Or.inl hx
        · exact Or.inr (List.mem_cons_of_mem a hx)
      · rintro (hx | hx)
        · exact Or.inl hx
        · rcases List.mem_cons.mp hx with hx | hx
          · exact Or.inl (hx ▸ ha)
          · exact Or.inr hx
    · have hk : insertKey ks a = ks ++ [a] := by simp [insertKey, ha]
      have hnd : (ks ++ [a]).Nodup := by
        rw [List.nodup_append]
        exact ⟨h, List.nodup_singleton a, by simpa using ha⟩
      have := ih (ks ++ [a]) hnd
      refine ⟨by simpa [hk] using this.1, fun x => ?_⟩
      rw [List.foldl_cons, hk, this.2 x]
      simp only [List.mem_append, List.mem_singleton, List.mem_cons]
      tauto

theorem batchKeys_eq (orders : List Order) :
    batchKeys orders
      = (orders.filterMap (fun o => truthy o.batch_id)).foldl insertKey [] := by
  suffices h : ∀ (l : List Order) (ks : List String),
      l.foldl
        (fun ks o =>
          match truthy o.batch_id with
          | some b => insertKey ks b
          | none => ks)
        ks
        = (l.filterMap (fun o => truthy o.batch_id)).foldl insertKey ks by
    exact h orders []
  intro l
  induction l with
  | nil => intro ks; simp
  | cons o l ih =>
    intro ks
    cases hb : truthy o.batch_id <;>
      simp [List.filterMap_cons, hb, ih]

theorem batchKeys_nodup_mem (orders : List Order) :
    (batchKeys orders).Nodup
      ∧ ∀ b, b ∈ batchKeys orders
          ↔ b ∈ orders.filterMap (fun o => truthy o.batch_id) := by
  rw [batchKeys_eq]
  have h := foldl_insertKey_spec (orders.filterMap (fun o => truthy o.batch_id)) []
    List.nodup_nil
  exact ⟨h.1, fun b => by simpa using h.2 b⟩

theorem batchKeys_length (orders : List Order) :
    (batchKeys orders).length
      = ((orders.filterMap (fun o => truthy o.batch_id)).dedup).length := by
  have h := batchKeys_nodup_mem orders
  have hperm :
      List.Perm (batchKeys orders)
        ((orders.filterMap (fun o => truthy o.batch_id)).dedup) :=
    (List.perm_ext_iff_of_nodup h.1 (List.nodup_dedup _)).mpr
      (fun b => by rw [h.2 b, List.mem_dedup])
  exact hperm.length_eq

/-! ### Claim C1 -/

/-- Claim C1 (amended): for every input collection of orders, the grouped
view has exactly (count of orders with no or empty `batch_id`) + (count of
distinct non-empty `batch_id` values) rows, and every synthetic group row
has `service_type` `"DIVERSOS"`, carries as members exactly the orders
sharing its `batch_id`, and has `total_price` equal to the sum of the
members' `total_price` values. -/
theorem grouped_view_count_and_group_totals (key : String → Int) (orders : List Order) :
    (groupedOrders key orders).length
      = (orders.filter (fun o => decide (truthy o.batch_id = none))).length
        + ((orders.filterMap (fun o => truthy o.batch_id)).dedup).length
    ∧ ∀ row ∈ groupedOrders key orders, row.is_group = true →
        row.order.service_type = "DIVERSOS"
        ∧ ∃ b, b ≠ ""
            ∧ row.batch_items = orders.filter (fun o => decide (o.batch_id = some b))
            ∧ row.order.total_price = (row.batch_items.map (fun o => o.total_price)).sum := by
  constructor
  · rw [groupedOrders]
    simp only [List.length_insertionSort, List.length_append, List.length_map]
    rw [batchKeys_length]
  · intro row hrow hgrp
    rw [groupedOrders] at hrow
    have hmem := (List.mem_insertionSort _).mp hrow
    rcases List.mem_append.mp hmem with hs | hg
    · rcases List.mem_map.mp hs with ⟨o, _, rfl⟩
      simp at hgrp
    · rcases List.mem_map.mp hg with ⟨b, hb, rfl⟩
      have hbne : b ≠ "" := by
        have hbm := ((batchKeys_nodup_mem orders).2 b).mp hb
        rcases List.mem_filterMap.mp hbm with ⟨o, _, ho⟩
        exact (truthy_eq_some ho).2
      refine ⟨rfl, b, hbne, ?_, ?_⟩
      · show membersOf orders b = _
        rw [membersOf]
        exact List.filter_congr (fun o _ => truthy_decide_eq hbne o.batch_id)
      · show (groupRow (membersOf orders b)).order.total_price = _
        simp only [groupRow, sumPrices]
        rw [foldl_add_map, zero_add]

/-- Applies `grouped_view_count_and_group_totals` to a concrete list with
one single order and one two-member batch: the view has 1 + 1 = 2 rows. -/
theorem grouped_view_count_totals_witness :
    (groupedOrders (fun _ => 0) ordersC1w).length
      = (ordersC1w.filter (fun o => decide (truthy o.batch_id = none))).length
        + ((ordersC1w.filterMap (fun o => truthy o.batch_id)).dedup).length :=
  (grouped_view_count_and_group_totals (fun _ => 0) ordersC1w).1

/-- Claim C1 as stated is refuted by two orders sharing the empty-string
`batch_id`: JavaScript truthiness keeps them as two individual rows, while
(count with no `batch_id`) + (count of distinct `batch_id` values)
is 0 + 1 = 1. -/
theorem grouped_view_count_cex :
    ¬ ((groupedOrders (fun _ => 0) [emptyBatchO1, emptyBatchO2]).length
        = ([emptyBatchO1, emptyBatchO2].filter (fun o => decide (o.batch_id = none))).length
          + (([emptyBatchO1, emptyBatchO2].filterMap (fun o => o.batch_id)).dedup).length) := by
  decide

/-! ### Claims C2 and C3: batch cascade -/

theorem lookupSingleOrder_mem {orders : List DbOrder} {id : Nat} {o : DbOrder}
    (h : lookupSingleOrder orders id = some o) : o ∈ orders ∧ o.id = id := by
  rw [lookupSingleOrder] at h
  cases hf : orders.filter (fun o => decide (o.id = id)) with
  | nil =>
    rw [hf] at h
    cases h
  | cons a l =>
    cases l with
    | nil =>
      rw [hf] at h
      simp only [] at h
      have ha : a ∈ orders.filter (fun o => decide (o.id = id)) := by
        rw [hf]
        exact List.mem_cons_self a []
      have hm := List.mem_filter.mp ha
      cases h
      exact ⟨hm.1, by simpa using hm.2⟩
    | cons b l' =>
      rw [hf] at h
      cases h

theorem lookupSingleOrder_none {orders : List DbOrder} {id : Nat}
    (h : ∀ x ∈ orders, x.id ≠ id) : lookupSingleOrder orders id = none := by
  rw [lookupSingleOrder]
  have hf : orders.filter (fun o => decide (o.id = id)) = [] :=
    List.filter_eq_nil_iff.mpr (fun a ha => by simpa using h a ha)
  rw [hf]

theorem truthy_of_some_ne {b : String} (hb : b ≠ "") :
    truthy (some b) = some b := by
  simp [truthy, hb]

/-- Claim C2 (amended): an authenticated status update on an existing order
looks up its `batch_id`; when the `batch_id` is non-empty, every stored
order sharing it gets the new status and all others are untouched; when it
is absent or empty, exactly the rows with the given id are updated.  The
reply is `{success: true}` and the other tables are unchanged. -/
theorem patch_status_cascades (env : Env) (u : User) (db : DB) (id : Nat)
    (s : String) (o : DbOrder)
    (hauth : getAuthClient env.getUser env.header = some u)
    (ho : lookupSingleOrder db.orders id = some o) :
    (patchStatusH env db id s).2 = .ok true
    ∧ (patchStatusH env db id s).1.customers = db.customers
    ∧ (patchStatusH env db id s).1.images = db.images
    ∧ (∀ b, o.batch_id = some b → b ≠ "" →
        ∀ i : Nat, ((patchStatusH env db id s).1.orders)[i]?
          = (db.orders[i]?).map
              (fun x : DbOrder =>
                if x.batch_id = some b then { x with status := s } else x))
    ∧ (truthy o.batch_id = none →
        ∀ i : Nat, ((patchStatusH env db id s).1.orders)[i]?
          = (db.orders[i]?).map
              (fun x : DbOrder =>
                if x.id = id then { x with status := s } else x)) := by
  refine ⟨?_, ?_, ?_, ?_, ?_⟩
  · cases htb : truthy o.batch_id <;>
      simp [patchStatusH, hauth, patchStatusCore, ho, htb]
  · cases htb : truthy o.batch_id <;>
      simp [patchStatusH, hauth, patchStatusCore, ho, htb]
  · cases htb : truthy o.batch_id <;>
      simp [patchStatusH, hauth, patchStatusCore, ho, htb]
  · intro b hb hbne i
    have htb : truthy o.batch_id = some b := by
      rw [hb]
      exact truthy_of_some_ne hbne
    simp [patchStatusH, hauth, patchStatusCore, ho, htb, List.getElem?_map]
  · intro htb i
    simp [patchStatusH, hauth, patchStatusCore, ho, htb, List.getElem?_map]

/-- Applies `patch_status_cascades` to a concrete batch: updating order 1 of
batch `b1` rewrites order 2's row (index 1) to the new status. -/
theorem patch_status_cascades_witness :
    (patchStatusH envOk dbBatch 1 "Entregue").2 = .ok true
    ∧ ((patchStatusH envOk dbBatch 1 "Entregue").1.orders)[1]?
        = ((dbBatch.orders)[1]?).map
            (fun x : DbOrder =>
              if x.batch_id = some "b1" then { x with status := "Entregue" } else x) := by
  have h := patch_status_cascades envOk user0 dbBatch 1 "Entregue" rowB1
    (by decide) (by decide)
  exact ⟨h.1, h.2.2.2.1 "b1" (by decide) (by decide) 1⟩

/-- Claim C2 as stated is refuted by an empty-string `batch_id`: both stored
orders share `batch_id = ""`, yet updating order 1 leaves order 2's status
unchanged, because JavaScript truthiness routes the empty string into the
single-order branch. -/
theorem patch_status_cascades_cex :
    rowEB1.batch_id = rowEB2.batch_id
    ∧ rowEB1.batch_id ≠ none
    ∧ ((patchStatusH envOk dbEB 1 "Entregue").1.orders)[1]? = some rowEB2
    ∧ rowEB2.status ≠ "Entregue" := by
  decide

/-- Claim C3 (amended): an authenticated delete of an existing order removes
every stored order sharing its non-empty `batch_id` and only those; when the
`batch_id` is absent or empty, exactly the rows with the given id are
removed.  The reply is `{success: true}` and the other tables are
unchanged. -/
theorem delete_order_cascades (env : Env) (u : User) (db : DB) (id : Nat)
    (o : DbOrder)
    (hauth : getAuthClient env.getUser env.header = some u)
    (ho : lookupSingleOrder db.orders id = some o) :
    (deleteOrderH env db id).2 = .ok true
    ∧ (deleteOrderH env db id).1.customers = db.customers
    ∧ (deleteOrderH env db id).1.images = db.images
    ∧ (∀ b, o.batch_id = some b → b ≠ "" →
        ∀ x : DbOrder, x ∈ (deleteOrderH env db id).1.orders
          ↔ x ∈ db.orders ∧ x.batch_id ≠ some b)
    ∧ (truthy o.batch_id = none →
        ∀ x : DbOrder, x ∈ (deleteOrderH env db id).1.orders
          ↔ x ∈ db.orders ∧ x.id ≠ id) := by
  refine ⟨?_, ?_, ?_, ?_, ?_⟩
  · cases htb : truthy o.batch_id <;>
      simp [deleteOrderH, hauth, deleteOrderCore, ho, htb]
  · cases htb : truthy o.batch_id <;>
      simp [deleteOrderH, hauth, deleteOrderCore, ho, htb]
  · cases htb : truthy o.batch_id <;>
      simp [deleteOrderH, hauth, deleteOrderCore, ho, htb]
  · intro b hb hbne x
    have htb : truthy o.batch_id = some b := by
      rw [hb]
      exact truthy_of_some_ne hbne
    simp [deleteOrderH, hauth, deleteOrderCore, ho, htb, List.mem_filter]
  · intro htb x
    simp [deleteOrderH, hauth, deleteOrderCore, ho, htb, List.mem_filter]

/-- Applies `delete_order_cascades` to a concrete batch: deleting order 1 of
batch `b1` also removes order 2, its batch sibling. -/
theorem delete_order_cascades_witness :
    (deleteOrderH envOk dbBatch 1).2 = .ok true
    ∧ (rowB2 ∈ (deleteOrderH envOk dbBatch 1).1.orders
        ↔ rowB2 ∈ dbBatch.orders ∧ rowB2.batch_id ≠ some "b1") := by
  have h := delete_order_cascades envOk user0 dbBatch 1 rowB1 (by decide) (by decide)
  exact ⟨h.1, h.2.2.2.1 "b1" (by decide) (by decide) rowB2⟩

/-- Claim C3 as stated is refuted by an empty-string `batch_id`: both stored
orders share `batch_id = ""`, yet deleting order 1 leaves order 2 in the
table. -/
theorem delete_order_cascades_cex :
    rowEB1.batch_id = rowEB2.batch_id
    ∧ rowEB1.batch_id ≠ none
    ∧ rowEB2 ∈ (deleteOrderH envOk dbEB 1).1.orders := by
  decide

/-! ### Claims C4 and C5: order creation -/

theorem stepState_orders (st : DB) (batch : Option String) (p : Payload) :
    (stepState st batch p).orders = st.orders ++ [mkRow st.nextOrderId batch p] := by
  rw [stepState]
  split <;> rfl

theorem stepState_nextOrderId (st : DB) (batch : Option String) (p : Payload) :
    (stepState st batch p).nextOrderId = st.nextOrderId + 1 := by
  rw [stepState]
  split <;> rfl

theorem genBatchId_ne_empty (nowMs : Nat) (suffix : String) :
    genBatchId nowMs suffix ≠ "" := by
  intro h
  have hlen := congrArg String.length h
  rw [genBatchId, String.length_append, String.length_append,
    String.length_append] at hlen
  have hb6 : ("batch_" : String).length = 6 := rfl
  have hu1 : ("_" : String).length = 1 := rfl
  have he0 : ("" : String).length = 0 := rfl
  rw [hb6, hu1, he0] at hlen
  omega

theorem insertLoop_appends (failAt : Nat → Bool) (batch : Option String) :
    ∀ (ps : List Payload) (i : Nat) (acc : List Nat) (st : DB),
      ∃ new, (insertLoop failAt batch i acc st ps).1.orders = st.orders ++ new
        ∧ ∀ x ∈ new, x.batch_id = batch := by
  intro ps
  induction ps with
  | nil =>
    intro i acc st
    refine ⟨[], ?_, ?_⟩ <;> simp [insertLoop]
  | cons p rest ih =>
    intro i acc st
    by_cases hf : failAt i
    · refine ⟨[], ?_, ?_⟩ <;> simp [insertLoop, hf]
    · rcases ih (i + 1) (acc ++ [st.nextOrderId]) (stepState st batch p) with
        ⟨new, hnew, hb⟩
      refine ⟨mkRow st.nextOrderId batch p :: new, ?_, ?_⟩
      · rw [insertLoop]
        simp only [hf, if_neg, Bool.false_eq_true, not_false_eq_true, hnew,
          stepState_orders]
        simp [List.append_assoc]
      · intro x hx
        rcases List.mem_cons.mp hx with rfl | hx
        · rfl
        · exact hb x hx

/-- Claim C4: an authenticated creation request appends its created rows to
the orders table; a single-payload request stamps no `batch_id` on any
created row, while a request of two or more payloads stamps the same
generated non-empty `batch_id` on every created row (this holds whether or
not a later insert of the same request fails). -/
theorem post_orders_batch_stamp (env : Env) (u : User) (db : DB) (body : ReqBody)
    (hauth : getAuthClient env.getUser env.header = some u) :
    ∃ created, (postOrdersH env db body).1.orders = db.orders ++ created
      ∧ (body.toList.length = 1 → ∀ x ∈ created, x.batch_id = none)
      ∧ (2 ≤ body.toList.length →
          genBatchId env.nowMs env.suffix ≠ ""
            ∧ ∀ x ∈ created,
                x.batch_id = some (genBatchId env.nowMs env.suffix)) := by
  have hred : postOrdersH env db body
      = postOrdersCore db body env.nowMs env.suffix env.failAt := by
    simp [postOrdersH, hauth]
  rcases insertLoop_appends env.failAt
      (if body.toList.length > 1 then some (genBatchId env.nowMs env.suffix) else none)
      body.toList 0 [] db with ⟨new, hnew, hb⟩
  refine ⟨new, ?_, ?_, ?_⟩
  · rw [hred, postOrdersCore]
    exact hnew
  · intro h1 x hx
    have hcond : ¬ body.toList.length > 1 := by omega
    have := hb x hx
    rw [if_neg hcond] at this
    exact this
  · intro h2
    refine ⟨genBatchId_ne_empty env.nowMs env.suffix, fun x hx => ?_⟩
    have hcond : body.toList.length > 1 := by omega
    have := hb x hx
    rw [if_pos hcond] at this
    exact this

/-- Applies `post_orders_batch_stamp` to a two-payload request, and
evaluates it: both created rows carry the same generated batch id. -/
theorem post_orders_batch_stamp_witness :
    genBatchId envOk.nowMs envOk.suffix ≠ ""
    ∧ 2 ≤ (ReqBody.array [pay1, pay2]).toList.length
    ∧ (postOrdersH envOk dbEmpty (ReqBody.array [pay1, pay2])).1.orders
        = [mkRow 1 (some (genBatchId envOk.nowMs envOk.suffix)) pay1,
           mkRow 2 (some (genBatchId envOk.nowMs envOk.suffix)) pay2] := by
  have h := post_orders_batch_stamp envOk user0 dbEmpty (ReqBody.array [pay1, pay2])
    (by decide)
  rcases h with ⟨created, hc, h1, h2⟩
  exact ⟨(h2 (by decide)).1, by decide, by decide⟩

theorem insertLoop_fail_proj (failAt : Nat → Bool) (batch : Option String) :
    ∀ (ps : List Payload) (K i : Nat) (acc : List Nat) (st : DB),
      K < ps.length → failAt (i + K) = true →
      (∀ j, j < K → failAt (i + j) = false) →
      (insertLoop failAt batch i acc st ps).2 = .error ⟨500, "Erro ao salvar pedidos."⟩
        ∧ (insertLoop failAt batch i acc st ps).1.orders
            = st.orders ++ buildRows st.nextOrderId batch (ps.take K) := by
  intro ps
  induction ps with
  | nil =>
    intro K i acc st hK
    exact absurd hK (by simp)
  | cons p rest ih =>
    intro K i acc st hK hFail hPre
    cases K with
    | zero =>
      have hf : failAt i = true := by simpa using hFail
      refine ⟨?_, ?_⟩ <;> simp [insertLoop, hf, buildRows]
    | succ K =>
      have hf : failAt i = false := by simpa using hPre 0 (Nat.succ_pos K)
      have h1 : K < rest.length := by simpa using hK
      have h2 : failAt (i + 1 + K) = true := by
        have harith : i + 1 + K = i + (K + 1) := by omega
        rw [harith]
        exact hFail
      have h3 : ∀ j, j < K → failAt (i + 1 + j) = false := by
        intro j hj
        have harith : i + 1 + j = i + (j + 1) := by omega
        rw [harith]
        exact hPre (j + 1) (by omega)
      have ihres := ih K (i + 1) (acc ++ [st.nextOrderId]) (stepState st batch p)
        h1 h2 h3
      refine ⟨?_, ?_⟩
      · rw [insertLoop, if_neg (by simp [hf])]
        exact ihres.1
      · rw [insertLoop, if_neg (by simp [hf])]
        rw [ihres.2, stepState_orders, stepState_nextOrderId]
        simp [buildRows, List.append_assoc]

/-- Claim C5: in an authenticated multi-payload creation where the insert
of payload index `K` (0-based) fails and all earlier inserts succeed, the
reply is the generic `500 {error: 'Erro ao salvar pedidos.'}` — a constant
carrying no information about which rows succeeded — while the rows built
from the first `K` payloads remain persisted in the orders table. -/
theorem post_orders_no_rollback (env : Env) (u : User) (db : DB)
    (ps : List Payload) (K : Nat)
    (hauth : getAuthClient env.getUser env.header = some u)
    (hN : 2 ≤ ps.length) (hK : K < ps.length)
    (hfail : env.failAt K = true)
    (hpre : ∀ j, j < K → env.failAt j = false) :
    (postOrdersH env db (ReqBody.array ps)).2
      = .error ⟨500, "Erro ao salvar pedidos."⟩
    ∧ (postOrdersH env db (ReqBody.array ps)).1.orders
        = db.orders
          ++ buildRows db.nextOrderId (some (genBatchId env.nowMs env.suffix))
              (ps.take K) := by
  have hgt : 1 < ps.length := by omega
  have hred : postOrdersH env db (ReqBody.array ps)
      = insertLoop env.failAt (some (genBatchId env.nowMs env.suffix)) 0 [] db ps := by
    simp [postOrdersH, hauth, postOrdersCore, ReqBody.toList, hgt]
  rw [hred]
  exact insertLoop_fail_proj env.failAt _ ps K 0 [] db hK
    (by simpa using hfail) (fun j hj => by simpa using hpre j hj)

/-- Applies `post_orders_no_rollback` to a three-payload request whose
second insert (index 1) fails: the first row is persisted and the reply is
the constant generic 500 error. -/
theorem post_orders_no_rollback_witness :
    (postOrdersH envFail1 dbEmpty (ReqBody.array [pay1, pay2, pay3])).2
      = .error ⟨500, "Erro ao salvar pedidos."⟩
    ∧ (postOrdersH envFail1 dbEmpty (ReqBody.array [pay1, pay2, pay3])).1.orders
        = dbEmpty.orders
          ++ buildRows dbEmpty.nextOrderId
              (some (genBatchId envFail1.nowMs envFail1.suffix))
              ([pay1, pay2, pay3].take 1) :=
  post_orders_no_rollback envFail1 user0 dbEmpty [pay1, pay2, pay3] 1
    (by decide) (by decide) (by decide) (by decide)
    (fun j hj => by
      have hj0 : j = 0 := by omega
      subst hj0
      decide)

/-! ### Claim C6: monthly revenue -/

/-- Claim C6: with exactly the three stated orders — one dated 2024-03-01
with `total_price` 100, one dated 2024-03-31 with `total_price` 50, and one
dated 2024-02-28 — an authenticated stats call made while the server's
calendar date lies in March 2024 reports `monthlyRevenue` 150: both March
boundary days are included (inclusive range) and the February order is
excluded. -/
theorem stats_monthly_revenue (env : Env) (u : User) (db : DB)
    (o1 o2 o3 : DbOrder)
    (hauth : getAuthClient env.getUser env.header = some u)
    (hdb : db.orders = [o1, o2, o3])
    (hd1 : o1.order_date = "2024-03-01") (hp1 : o1.total_price = 100)
    (hd2 : o2.order_date = "2024-03-31") (hp2 : o2.total_price = 50)
    (hd3 : o3.order_date = "2024-02-28")
    (hy : env.today.year = 2024) (hm : env.today.month = 3) :
    (getStatsH env db).2 = .ok (getStatsCore db env.today)
    ∧ (getStatsCore db env.today).monthlyRevenue = 150 := by
  constructor
  · simp [getStatsH, hauth]
  · have hs : startOfMonthStr env.today = "2024-03-01" := by
      rw [startOfMonthStr, monthStr, hy, hm]
      rfl
    have he : endOfMonthStr env.today = "2024-03-31" := by
      rw [endOfMonthStr, hy, hm]
      rfl
    have hmr : (getStatsCore db env.today).monthlyRevenue
        = revenueInRange db.orders (startOfMonthStr env.today) (endOfMonthStr env.today) := rfl
    rw [hmr, hs, he, hdb, revenueInRange]
    have g1 : (strLe "2024-03-01" o1.order_date && strLe o1.order_date "2024-03-31")
        = true := by
      rw [hd1]
      decide
    have g2 : (strLe "2024-03-01" o2.order_date && strLe o2.order_date "2024-03-31")
        = true := by
      rw [hd2]
      decide
    have g3 : (strLe "2024-03-01" o3.order_date && strLe o3.order_date "2024-03-31")
        = false := by
      rw [hd3]
      decide
    simp only [List.filter_cons, List.filter_nil, g1, g2, g3, if_true, if_false,
      Bool.false_eq_true, List.foldl_cons, List.foldl_nil]
    rw [hp1, hp2]
    norm_num

/-- Applies `stats_monthly_revenue` to the concrete three-order database
with the clock set inside March 2024. -/
theorem stats_monthly_revenue_witness :
    (getStatsH envOk dbStats).2 = .ok (getStatsCore dbStats envOk.today)
    ∧ (getStatsCore dbStats envOk.today).monthlyRevenue = 150 :=
  stats_monthly_revenue envOk user0 dbStats sampleMar1 sampleMar31 sampleFeb28
    (by decide) rfl rfl rfl rfl rfl rfl rfl rfl

/-! ### Claim C7: authentication guard -/

/-- Claim C7: for every one of the eleven endpoints, a request whose bearer
token is absent or invalid (`getAuthClient` yields no user) is answered
with status 401 and the `{error: 'Não autorizado'}` body, and the returned
database state is the input state — the reply is a constant independent of
the database, so no database operation is involved. -/
theorem endpoints_unauthorized (env : Env)
    (hnone : getAuthClient env.getUser env.header = none) :
    (∀ db : DB, getCustomersH env db = (db, .error err401))
    ∧ (∀ (db : DB) (p : CustPayload), postCustomersH env db p = (db, .error err401))
    ∧ (∀ (db : DB) (id : Nat), deleteCustomerH env db id = (db, .error err401))
    ∧ (∀ db : DB, getOrdersH env db = (db, .error err401))
    ∧ (∀ (db : DB) (id : Nat), getOrderH env db id = (db, .error err401))
    ∧ (∀ (db : DB) (body : ReqBody), postOrdersH env db body = (db, .error err401))
    ∧ (∀ (db : DB) (id : Nat) (s : String),
        patchStatusH env db id s = (db, .error err401))
    ∧ (∀ (db : DB) (id : Nat), deleteOrderH env db id = (db, .error err401))
    ∧ (∀ db : DB, getStatsH env db = (db, .error err401))
    ∧ (∀ db : DB, getTrendsH env db = (db, .error err401))
    ∧ (∀ db : DB, getDistributionH env db = (db, .error err401)) := by
  refine ⟨?_, ?_, ?_, ?_, ?_, ?_, ?_, ?_, ?_, ?_, ?_⟩ <;> intros <;>
    simp [getCustomersH, postCustomersH, deleteCustomerH, getOrdersH, getOrderH,
      postOrdersH, patchStatusH, deleteOrderH, getStatsH, getTrendsH,
      getDistributionH, hnone]

/-- Applies `endpoints_unauthorized` to a request with no Authorization
header: sampled endpoints answer the constant 401 error on an untouched
database. -/
theorem endpoints_unauthorized_witness :
    getAuthClient env401.getUser env401.header = none
    ∧ patchStatusH env401 dbBatch 1 "Entregue" = (dbBatch, .error err401)
    ∧ getStatsH env401 dbBatch = (dbBatch, .error err401) := by
  have h := endpoints_unauthorized env401 rfl
  exact ⟨rfl, h.2.2.2.2.2.2.1 dbBatch 1 "Entregue", h.2.2.2.2.2.2.2.2.1 dbBatch⟩

/-! ### Claim C8: unknown order id -/

/-- Claim C8 (amended): for an authenticated request naming an order id that
matches no stored row, `GET /api/orders/:id` answers 404 with the
`Pedido não encontrado` error and leaves the database unchanged, while
`PATCH /api/orders/:id/status` and `DELETE /api/orders/:id` ignore the
failed lookup, touch nothing, and answer `{success: true}`. -/
theorem order_not_found (env : Env) (u : User) (db : DB) (id : Nat) (s : String)
    (hauth : getAuthClient env.getUser env.header = some u)
    (hmiss : ∀ x ∈ db.orders, x.id ≠ id) :
    getOrderH env db id = (db, .error ⟨404, "Pedido não encontrado"⟩)
    ∧ patchStatusH env db id s = (db, .ok true)
    ∧ deleteOrderH env db id = (db, .ok true) := by
  have hlook : lookupSingleOrder db.orders id = none := lookupSingleOrder_none hmiss
  refine ⟨?_, ?_, ?_⟩
  · simp [getOrderH, hauth, getOrderByIdCore, hlook]
  · have hmap : db.orders.map
        (fun x => if x.id = id then { x with status := s } else x) = db.orders := by
      conv_rhs => rw [← List.map_id db.orders]
      exact List.map_congr_left (fun x hx => if_neg (hmiss x hx))
    simp [patchStatusH, hauth, patchStatusCore, hlook, hmap]
  · have hfil : db.orders.filter (fun x => !decide (x.id = id)) = db.orders :=
      List.filter_eq_self.mpr (fun x hx => by simpa using hmiss x hx)
    simp [deleteOrderH, hauth, deleteOrderCore, hlook, hfil]

/-- Applies `order_not_found` to id 99, absent from the concrete database. -/
theorem order_not_found_witness :
    getOrderH envOk dbBatch 99 = (dbBatch, .error ⟨404, "Pedido não encontrado"⟩)
    ∧ patchStatusH envOk dbBatch 99 "Entregue" = (dbBatch, .ok true)
    ∧ deleteOrderH envOk dbBatch 99 = (dbBatch, .ok true) :=
  order_not_found envOk user0 dbBatch 99 "Entregue" (by decide) (by decide)

/-- Claim C8 as stated is refuted for PATCH and DELETE: with no stored
order 99, both answer `{success: true}` (HTTP 200), not 404 — the failed
lookup's error is swallowed and the update/delete-by-id branch matches
nothing. -/
theorem order_not_found_cex :
    lookupSingleOrder dbEmpty.orders 99 = none
    ∧ (patchStatusH envOk dbEmpty 99 "Entregue").2 = .ok true
    ∧ (deleteOrderH envOk dbEmpty 99).2 = .ok true :=
  ⟨rfl, rfl, rfl⟩

/-! ### Claim C9: duplicate customer -/

/-- Claim C9: within one user's visible slice (RLS scopes the check to that
user's rows), creating a customer with a fresh `(name, phone)` pair
succeeds, and immediately repeating the call with the same pair answers
`400` with the duplicate-customer error body and leaves the database
unchanged — no second row is inserted. -/
theorem duplicate_customer_rejected (env : Env) (u : User) (db : DB)
    (p q : CustPayload)
    (hauth : getAuthClient env.getUser env.header = some u)
    (hname : q.name = p.name) (hphone : q.phone = p.phone)
    (hfresh : ∀ c ∈ db.customers, ¬(c.name = p.name ∧ c.phone = p.phone)) :
    (postCustomersH env db p).2 = .ok db.nextCustomerId
    ∧ postCustomersH env (postCustomersH env db p).1 q
        = ((postCustomersH env db p).1,
           .error ⟨400, "Cliente já cadastrado com este nome e telefone."⟩) := by
  have hfil0 : db.customers.filter
      (fun c => decide (c.name = p.name) && decide (c.phone = p.phone)) = [] :=
    List.filter_eq_nil_iff.mpr (fun c hc => by simpa using hfresh c hc)
  have hcore1 : postCustomersH env db p
      = ({ db with
            customers := db.customers
              ++ [⟨db.nextCustomerId, p.name, p.phone, p.email, p.company, env.nowIso⟩],
            nextCustomerId := db.nextCustomerId + 1 },
         .ok db.nextCustomerId) := by
    simp only [postCustomersH, hauth]
    rw [postCustomerCore]
    simp [hfil0]
  refine ⟨by rw [hcore1], ?_⟩
  rw [hcore1]
  simp only [postCustomersH, hauth]
  rw [postCustomerCore]
  rw [List.filter_append]
  have hq0 : db.customers.filter
      (fun c => decide (c.name = q.name) && decide (c.phone = q.phone)) = [] := by
    rw [hname, hphone]
    exact hfil0
  rw [hq0]
  simp [hname, hphone]

/-- Applies `duplicate_customer_rejected` to the `Ana / 11999990000`
payload submitted twice on an empty customer table: the second call is the
400 duplicate error and the state is returned unchanged. -/
theorem duplicate_customer_rejected_witness :
    (postCustomersH envOk dbEmpty custAna).2 = .ok dbEmpty.nextCustomerId
    ∧ postCustomersH envOk (postCustomersH envOk dbEmpty custAna).1 custAna
        = ((postCustomersH envOk dbEmpty custAna).1,
           .error ⟨400, "Cliente já cadastrado com este nome e telefone."⟩) :=
  duplicate_customer_rejected envOk user0 dbEmpty custAna custAna
    (by decide) rfl rfl (by decide)

/-! ### Claim C10: status stored verbatim -/

/-- Claim C10: the status patch handler validates nothing: for every string
`s` — `"Arquivado"` or any other value — the authenticated call answers
`{success: true}`; every row of the result either carries exactly `s` as
its status or is an untouched original row; and when the id names a stored
order, some row with that order's id ends up with status `s`. -/
theorem patch_status_verbatim (env : Env) (u : User) (db : DB) (id : Nat)
    (s : String)
    (hauth : getAuthClient env.getUser env.header = some u) :
    (patchStatusH env db id s).2 = .ok true
    ∧ (∀ x ∈ (patchStatusH env db id s).1.orders, x.status = s ∨ x ∈ db.orders)
    ∧ (∀ o, lookupSingleOrder db.orders id = some o →
        ∃ x ∈ (patchStatusH env db id s).1.orders, x.id = o.id ∧ x.status = s) := by
  refine ⟨?_, ?_, ?_⟩
  · cases hb : (lookupSingleOrder db.orders id).bind (fun o => truthy o.batch_id) <;>
      simp [patchStatusH, hauth, patchStatusCore, hb]
  · intro x hx
    cases hb : (lookupSingleOrder db.orders id).bind (fun o => truthy o.batch_id) with
    | none =>
      simp only [patchStatusH, hauth, patchStatusCore, hb] at hx
      rcases List.mem_map.mp hx with ⟨y, hy, rfl⟩
      by_cases hc : y.id = id
      · rw [if_pos hc]
        exact Or.inl rfl
      · rw [if_neg hc]
        exact Or.inr hy
    | some b =>
      simp only [patchStatusH, hauth, patchStatusCore, hb] at hx
      rcases List.mem_map.mp hx with ⟨y, hy, rfl⟩
      by_cases hc : y.batch_id = some b
      · rw [if_pos hc]
        exact Or.inl rfl
      · rw [if_neg hc]
        exact Or.inr hy
  · intro o ho
    have hmem := lookupSingleOrder_mem ho
    cases hb : truthy o.batch_id with
    | some b =>
      have hob : o.batch_id = some b := (truthy_eq_some hb).1
      have hbind : (lookupSingleOrder db.orders id).bind (fun o => truthy o.batch_id)
          = some b := by
        rw [ho]
        simpa using hb
      simp only [patchStatusH, hauth, patchStatusCore, hbind]
      refine ⟨if o.batch_id = some b then { o with status := s } else o,
        List.mem_map_of_mem _ hmem.1, ?_⟩
      rw [if_pos hob]
      exact ⟨rfl, rfl⟩
    | none =>
      have hbind : (lookupSingleOrder db.orders id).bind (fun o => truthy o.batch_id)
          = none := by
        rw [ho]
        simpa using hb
      simp only [patchStatusH, hauth, patchStatusCore, hbind]
      refine ⟨if o.id = id then { o with status := s } else o,
        List.mem_map_of_mem _ hmem.1, ?_⟩
      rw [if_pos hmem.2]
      exact ⟨rfl, rfl⟩

/-- Applies `patch_status_verbatim` with the out-of-flow status
`"Arquivado"`, and evaluates the result: the unbatched order 3 is stored
with that status verbatim. -/
theorem patch_status_verbatim_witness :
    (patchStatusH envOk dbBatch 3 "Arquivado").2 = .ok true
    ∧ ((patchStatusH envOk dbBatch 3 "Arquivado").1.orders)[2]?
        = some { rowSolo with status := "Arquivado" } := by
  have h := patch_status_verbatim envOk user0 dbBatch 3 "Arquivado" (by decide)
  exact ⟨h.1, by decide⟩

end CRM
